import Mathlib

/-!
Shallow embedding of the beefyTool Strategy Configuration Validation &
Migration Engine (src/core/config/{model,validation,migration,io}.ts,
src/core/networks.ts, src/core/beefy/strategyFamilies.ts) together with
theorems settling the specification claims about it.

Conventions of the embedding:
* TypeScript strings are Lean `String`, arrays are `List`, optional
  properties (`gaugeAddress?: string`) are `Option String` (`none` =
  property absent / `undefined`).
* `number`-typed config versions are `Int` (all versions appearing in the
  program are integers; template-literal rendering of an integer is the
  usual decimal rendering, i.e. `toString : Int → String`).
* Throwing functions return `Except BeefyError α`; JavaScript's fail-fast
  control flow (throw on the first violated rule) becomes a chain of
  `check` guards.
* The process-wide migration registry (a `Map<string, MigrationFunction>`)
  is passed explicitly as an association list; `Map.set` conses at the
  front and `Map.get` takes the first match, so "last registration wins"
  is preserved.
-/

/-! ## Error taxonomy (src/core/utils/errors.ts) -/

/-- Typed errors of the engine.  `configValidation` is
`ConfigValidationError` (field-attributed), `generation` is
`GenerationError` (the class used for migration failures, raised with
step `"migration"`), `fileSystem` is `FileSystemError`, and `plain` is a
bare JavaScript `Error` (thrown only by the metadata lookups). -/
inductive BeefyError where
  | configValidation (message : String) (field : String)
  | generation (message : String) (step : String)
  | fileSystem (message : String) (path : String)
  | plain (message : String)
deriving DecidableEq

deriving instance DecidableEq for Except

/-- The `message` property of a thrown error (used by the loader when it
wraps an unrecognized error into a `FileSystemError`). -/
def BeefyError.message : BeefyError → String
  | .configValidation m _ => m
  | .generation m _ => m
  | .fileSystem m _ => m
  | .plain m => m

/-! ## Config model (src/core/config/model.ts) -/

/-- `SwapRoute` — a directed token-conversion path.  (`from` and `to` are
keywords in Lean, hence the guillemets.) -/
structure SwapRoute where
  «from» : String
  «to» : String
  path : List String
deriving DecidableEq

/-- `Routes` — the three harvest routes. -/
structure Routes where
  rewardToNative : SwapRoute
  rewardToLp0 : SwapRoute
  rewardToLp1 : SwapRoute
deriving DecidableEq

/-- `BeefyCore` — the four infrastructure addresses. -/
structure BeefyCore where
  keeper : String
  vaultFactory : String
  feeConfig : String
  feeRecipient : String
deriving DecidableEq

/-- `StrategyConfig` — the root configuration entity.  The closed string
unions of the TypeScript model (`Network`, `StrategyFamily`, `Dex`,
`VaultMode`, `Complexity`) are embedded as `String` because the validator
receives arbitrary JSON-derived strings and checks membership itself. -/
structure StrategyConfig where
  configVersion : Int
  name : String
  network : String
  strategyFamily : String
  dex : String
  lpTokenAddress : String
  gaugeAddress : Option String
  stakingAddress : Option String
  rewardToken : String
  routes : Routes
  vaultMode : String
  beefyCore : BeefyCore
  complexity : String
deriving DecidableEq

/-! ## Network metadata (src/core/networks.ts) -/

/-- `NetworkMetadata` of networks.ts. -/
structure NetworkMetadata where
  chainId : Nat
  rpcEnvVar : String
  forkBlock : Option Nat := none
deriving DecidableEq

/-- `NETWORK_METADATA` — the `Record<Network, NetworkMetadata>` map, as an
association list of its four entries. -/
def NETWORK_METADATA : List (String × NetworkMetadata) :=
  [("mainnet", { chainId := 1, rpcEnvVar := "MAINNET_RPC_URL" }),
   ("optimism", { chainId := 10, rpcEnvVar := "OPTIMISM_RPC_URL" }),
   ("arbitrum", { chainId := 42161, rpcEnvVar := "ARBITRUM_RPC_URL" }),
   ("base", { chainId := 8453, rpcEnvVar := "BASE_RPC_URL" })]

/-- `isSupportedNetwork` — `network in NETWORK_METADATA` (key membership). -/
def isSupportedNetwork (network : String) : Bool :=
  (NETWORK_METADATA.find? (fun p => p.1 == network)).isSome

/-! ## Strategy families (src/core/beefy/strategyFamilies.ts) -/

/-- `StrategyFamilyDefinition` of strategyFamilies.ts (the `defaults`
record has only string values in the source table). -/
structure StrategyFamilyDefinition where
  requiredFields : List String
  defaults : List (String × String)
  template : String
  description : String
deriving DecidableEq

/-- `STRATEGY_FAMILIES` — the `Record<StrategyFamily, _>` table. -/
def STRATEGY_FAMILIES : List (String × StrategyFamilyDefinition) :=
  [("solidly_lp",
    { requiredFields := ["lpTokenAddress", "gaugeAddress", "rewardToken", "routes"],
      defaults := [("complexity", "basic")],
      template := "StrategySolidlyLP.sol.ejs",
      description := "Solidly-style LP strategies (Velodrome, Aerodrome, etc.)" })]

/-- `getStrategyFamily` — table lookup; `none` models the `throw new
Error(...)` branch for an unknown family. -/
def getStrategyFamily (family : String) : Option StrategyFamilyDefinition :=
  (STRATEGY_FAMILIES.find? (fun p => p.1 == family)).map (fun p => p.2)

/-- `isSupportedStrategyFamily` — `family in STRATEGY_FAMILIES`. -/
def isSupportedStrategyFamily (family : String) : Bool :=
  (STRATEGY_FAMILIES.find? (fun p => p.1 == family)).isSome

/-! ## Pure predicates (src/core/config/validation.ts) -/

/-- The character class `[a-fA-F0-9]` of the address regular expression. -/
def isHexDigit (c : Char) : Bool :=
  ('a' ≤ c && c ≤ 'f') || ('A' ≤ c && c ≤ 'F') || ('0' ≤ c && c ≤ '9')

/-- `isValidAddress` — the test `/^0x[a-fA-F0-9]{40}$/.test(address)`:
the literal prefix `0x` followed by exactly 40 hex characters, anchored at
both ends. -/
def isValidAddress (address : String) : Bool :=
  match address.data with
  | c1 :: c2 :: hexPart =>
    c1 == '0' && c2 == 'x' && hexPart.length == 40 && hexPart.all isHexDigit
  | _ => false

/-- The character class `[a-zA-Z0-9_\- ]` of the name regular expression. -/
def isAllowedNameChar (c : Char) : Bool :=
  ('a' ≤ c && c ≤ 'z') || ('A' ≤ c && c ≤ 'Z') || ('0' ≤ c && c ≤ '9') ||
  c == '_' || c == '-' || c == ' '

/-- `String.prototype.includes(sub)` — substring containment, embedded
over character lists: `sub` occurs as a prefix of some suffix. -/
def jsIncludes (sub : List Char) : List Char → Bool
  | [] => sub.isPrefixOf []
  | c :: rest => sub.isPrefixOf (c :: rest) || jsIncludes sub rest

/-- Whitespace removed by JavaScript's `String.prototype.trim`.  Only the
plain space `' '` can survive the preceding character-class check of
`isFilesystemSafeName`, but the full ASCII whitespace set is modelled. -/
def isJsWhitespace (c : Char) : Bool :=
  c == ' ' || c == '\t' || c == '\n' || c == '\u000B' || c == '\u000C' || c == '\r'

/-- `isFilesystemSafeName` — four sequential rejections, then `true`:
empty name (`!name || name.length === 0`); a `..`, `/` or `\` substring
(`String.prototype.includes`); a character outside `[a-zA-Z0-9_\- ]`
(regex `/^[a-zA-Z0-9_\- ]+$/`, which also demands at least one
character); a name that is empty after `trim()` (all whitespace). -/
def isFilesystemSafeName (name : String) : Bool :=
  if name.data.isEmpty then false
  else if jsIncludes (".." : String).data name.data
       || jsIncludes ("/" : String).data name.data
       || jsIncludes ("\\" : String).data name.data then false
  else if !(!name.data.isEmpty && name.data.all isAllowedNameChar) then false
  else if name.data.all isJsWhitespace then false
  else true

/-! ## Config validator (src/core/config/validation.ts) -/

/-- `String.prototype.toLowerCase()` — characterwise ASCII lowering
(`Char.toLower`), which is exactly what `toLowerCase` does on the
addresses compared here.  (Defined as a structural map so that it
evaluates by kernel reduction; `String.toLower` of the standard library
is extensionally the same function.) -/
def jsToLower (s : String) : String :=
  String.mk (s.data.map Char.toLower)

/-- `NATIVE_TOKEN_ADDRESS` — the EIP-7528 native-token sentinel. -/
def NATIVE_TOKEN_ADDRESS : String := "0xEeeeeEeeeEeEeeEeEeEeeEEEeeeeEeeeeeeeEEeE"

/-- `SUPPORTED_DEXES`. -/
def SUPPORTED_DEXES : List String := ["velodrome", "aerodrome"]

/-- One fail-fast guard: `if (cond) { throw e } …rest…`. -/
def check (cond : Bool) (e : BeefyError) (rest : Except BeefyError Unit) : Except BeefyError Unit :=
  if cond then .error e else rest

/-- Sequencing of two throwing statements. -/
def exSeq (first rest : Except BeefyError Unit) : Except BeefyError Unit :=
  match first with
  | .ok _ => rest
  | .error e => .error e

/-- JavaScript truthiness of an optional string property: `undefined` and
the empty string are falsy, every other string is truthy. -/
def jsTruthy : Option String → Bool
  | none => false
  | some s => !(s == "")

/-- The per-element loop `for (const token of path) { if (!isValidAddress(token)) throw … }`:
the first invalid element raises. -/
def pathElemsCheck (path : List String) (label : String) : Except BeefyError Unit :=
  match path with
  | [] => .ok ()
  | token :: rest =>
    check (!(isValidAddress token))
      (.configValidation ("Invalid token address in " ++ label ++ ".path: " ++ token)
        ("routes." ++ label ++ ".path"))
      (pathElemsCheck rest label)

/-- The route-validation block of `validateRoutes`, parametrised by the
route label (`rewardToNative` / `rewardToLp0` / `rewardToLp1`); the source
repeats this block verbatim three times, with the native-sentinel check
(`expectNative`) present only in the `rewardToNative` copy.  `path[0]` and
`path[path.length - 1]` are embedded with `List.getD` (default `""`),
which agrees with the source because both accesses are guarded by the
preceding non-empty check. -/
def validateRouteChecks (route : SwapRoute) (rewardToken : String) (label : String)
    (expectNative : Bool) : Except BeefyError Unit :=
  check (!(isValidAddress route.«from»))
    (.configValidation ("Invalid " ++ label ++ ".from address format: " ++ route.«from»)
      ("routes." ++ label ++ ".from")) <|
  check (!(jsToLower route.«from» == jsToLower rewardToken))
    (.configValidation (label ++ ".from (" ++ route.«from» ++ ") must match rewardToken (" ++ rewardToken ++ ")")
      ("routes." ++ label ++ ".from")) <|
  check (!(isValidAddress route.«to»))
    (.configValidation ("Invalid " ++ label ++ ".to address format: " ++ route.«to»)
      ("routes." ++ label ++ ".to")) <|
  check (expectNative && !(jsToLower route.«to» == jsToLower NATIVE_TOKEN_ADDRESS))
    (.configValidation (label ++ ".to must be the native token address (" ++ NATIVE_TOKEN_ADDRESS ++ "), got: " ++ route.«to»)
      ("routes." ++ label ++ ".to")) <|
  check (route.path.length == 0)
    (.configValidation (label ++ ".path must be a non-empty array")
      ("routes." ++ label ++ ".path")) <|
  check (!(jsToLower (route.path.getD 0 "") == jsToLower route.«from»))
    (.configValidation (label ++ ".path must start with from address (" ++ route.«from» ++ ")")
      ("routes." ++ label ++ ".path")) <|
  check (!(jsToLower (route.path.getD (route.path.length - 1) "") == jsToLower route.«to»))
    (.configValidation (label ++ ".path must end with to address (" ++ route.«to» ++ ")")
      ("routes." ++ label ++ ".path")) <|
  pathElemsCheck route.path label

/-- `validateRoutes` — the three route blocks in source order. -/
def validateRoutes (routes : Routes) (rewardToken : String) : Except BeefyError Unit :=
  exSeq (validateRouteChecks routes.rewardToNative rewardToken "rewardToNative" true) <|
  exSeq (validateRouteChecks routes.rewardToLp0 rewardToken "rewardToLp0" false) <|
  validateRouteChecks routes.rewardToLp1 rewardToken "rewardToLp1" false

/-- The family-conditional block of `validateConfig`.  JavaScript reads
`config.gaugeAddress && !isValidAddress(config.gaugeAddress)`: the guard
only fires on a truthy (present, non-empty) value, in which case
`Option.getD ""` is the value itself. -/
def familyChecks (config : StrategyConfig) : Except BeefyError Unit :=
  if config.strategyFamily == "solidly_lp" then
    check (!(jsTruthy config.gaugeAddress) && !(jsTruthy config.stakingAddress))
      (.configValidation "Either gaugeAddress or stakingAddress must be provided for solidly_lp strategy family"
        "gaugeAddress") <|
    check (jsTruthy config.gaugeAddress && !(isValidAddress (config.gaugeAddress.getD "")))
      (.configValidation ("Invalid gauge address format: " ++ config.gaugeAddress.getD "")
        "gaugeAddress") <|
    check (jsTruthy config.stakingAddress && !(isValidAddress (config.stakingAddress.getD "")))
      (.configValidation ("Invalid staking address format: " ++ config.stakingAddress.getD "")
        "stakingAddress")
      (.ok ())
  else .ok ()

/-- The tail of `validateConfig` after the family-conditional block: the
four `beefyCore` address checks followed by the route validation. -/
def beefyCoreAndRouteChecks (config : StrategyConfig) : Except BeefyError Unit :=
  check (!(isValidAddress config.beefyCore.keeper))
    (.configValidation ("Invalid keeper address format: " ++ config.beefyCore.keeper)
      "beefyCore.keeper") <|
  check (!(isValidAddress config.beefyCore.vaultFactory))
    (.configValidation ("Invalid vault factory address format: " ++ config.beefyCore.vaultFactory)
      "beefyCore.vaultFactory") <|
  check (!(isValidAddress config.beefyCore.feeConfig))
    (.configValidation ("Invalid fee config address format: " ++ config.beefyCore.feeConfig)
      "beefyCore.feeConfig") <|
  check (!(isValidAddress config.beefyCore.feeRecipient))
    (.configValidation ("Invalid fee recipient address format: " ++ config.beefyCore.feeRecipient)
      "beefyCore.feeRecipient") <|
  validateRoutes config.routes config.rewardToken

/-- `validateConfig` — the fail-fast rule chain: network, family, DEX,
name, LP/reward address formats, the (unused) `getStrategyFamily` lookup,
the family-conditional block, the four `beefyCore` addresses, and the
routes. -/
def validateConfig (config : StrategyConfig) : Except BeefyError Unit :=
  check (!(isSupportedNetwork config.network))
    (.configValidation ("Unsupported network: " ++ config.network ++ ". Supported networks: mainnet, optimism, arbitrum, base")
      "network") <|
  check (!(isSupportedStrategyFamily config.strategyFamily))
    (.configValidation ("Unsupported strategy family: " ++ config.strategyFamily ++ ". Supported families: solidly_lp")
      "strategyFamily") <|
  check (!(SUPPORTED_DEXES.contains config.dex))
    (.configValidation ("Unsupported DEX: " ++ config.dex ++ ". Supported DEXes: " ++ String.intercalate ", " SUPPORTED_DEXES)
      "dex") <|
  check (!(isFilesystemSafeName config.name))
    (.configValidation ("Strategy name contains invalid characters. Only alphanumeric characters, hyphens, and underscores are allowed: " ++ config.name)
      "name") <|
  check (!(isValidAddress config.lpTokenAddress))
    (.configValidation ("Invalid LP token address format: " ++ config.lpTokenAddress)
      "lpTokenAddress") <|
  check (!(isValidAddress config.rewardToken))
    (.configValidation ("Invalid reward token address format: " ++ config.rewardToken)
      "rewardToken") <|
  match getStrategyFamily config.strategyFamily with
  | none => .error (.plain ("Unsupported strategy family: " ++ config.strategyFamily))
  | some _familyDef =>
    exSeq (familyChecks config) (beefyCoreAndRouteChecks config)

/-! ## Migration registry & engine (src/core/config/migration.ts) -/

/-- `MigrationFunction` — a single-step transform.  Documents are embedded
at the typed `StrategyConfig` view (the source types them `any`); a
transform that throws is `.error` carrying the thrown error's message. -/
def MigrationFunction : Type := StrategyConfig → Except String StrategyConfig

/-- The state of the process-wide `migrationRegistry : Map<string, MigrationFunction>`,
passed explicitly.  Registration conses and lookup takes the first match,
so re-registering a key shadows the old entry, as for `Map.set`. -/
def MigrationRegistry : Type := List (String × MigrationFunction)

/-- `migrationRegistry.get(key)`. -/
def registryGet (reg : MigrationRegistry) (key : String) : Option MigrationFunction :=
  (reg.find? (fun p => p.1 == key)).map (fun p => p.2)

/-- The template-literal key `${fromVersion}->${toVersion}` (decimal
rendering of the two versions around a `->` separator). -/
def migrationKey (fromVersion toVersion : Int) : String :=
  toString fromVersion ++ "->" ++ toString toVersion

/-- `registerMigration` — `migrationRegistry.set(key, migrationFn)`. -/
def registerMigration (reg : MigrationRegistry) (fromVersion toVersion : Int)
    (migrationFn : MigrationFunction) : MigrationRegistry :=
  (migrationKey fromVersion toVersion, migrationFn) :: reg

/-- The `while (currentVersion < toVersion)` loop of `migrateConfig`, with
the iteration count as explicit fuel: `migrateConfig` enters it with
`fromVersion < toVersion` and fuel `(toVersion - fromVersion).toNat`, the
exact number of iterations of the source loop. -/
def migrateLoop (reg : MigrationRegistry) : Nat → Int → StrategyConfig → Except BeefyError StrategyConfig
  | 0, _, currentConfig => .ok currentConfig
  | fuel + 1, currentVersion, currentConfig =>
    match registryGet reg (migrationKey currentVersion (currentVersion + 1)) with
    | none =>
      .error (.generation ("Migration from version " ++ toString currentVersion ++ " to " ++
        toString (currentVersion + 1) ++ " is not implemented. " ++
        "Please implement the migration function and register it using registerMigration().")
        "migration")
    | some migrationFn =>
      match migrationFn currentConfig with
      | .ok next => migrateLoop reg fuel (currentVersion + 1) next
      | .error msg =>
        .error (.generation ("Migration from version " ++ toString currentVersion ++ " to " ++
          toString (currentVersion + 1) ++ " failed: " ++ msg)
          "migration")

/-- `migrateConfig` — same version: unchanged; downgrade: `GenerationError`;
otherwise walk the consecutive single steps and stamp `configVersion` on
the result. -/
def migrateConfig (reg : MigrationRegistry) (config : StrategyConfig)
    (fromVersion toVersion : Int) : Except BeefyError StrategyConfig :=
  if fromVersion == toVersion then .ok config
  else if fromVersion > toVersion then
    .error (.generation ("Cannot downgrade config from version " ++ toString fromVersion ++
      " to " ++ toString toVersion ++ ". Downgrades are not supported.")
      "migration")
  else
    match migrateLoop reg (toVersion - fromVersion).toNat fromVersion config with
    | .error e => .error e
    | .ok currentConfig => .ok { currentConfig with configVersion := toVersion }

/-! ## Loader (src/core/config/io.ts) -/

/-- `CURRENT_CONFIG_VERSION`. -/
def CURRENT_CONFIG_VERSION : Int := 1

/-- The persisted store, path ↦ stored document.  `JSON.stringify`
followed by `JSON.parse` is the identity on JSON-representable config
records (an optional field serialized away as `undefined` reads back as
absent), so the store holds the config value itself. -/
def FileStore : Type := List (String × StrategyConfig)

/-- Reading the raw bytes of a path. -/
def storeRead (store : FileStore) (path : String) : Option StrategyConfig :=
  (store.find? (fun p => p.1 == path)).map (fun p => p.2)

/-- The version dispatch of `validateAndMigrateConfig` (`version` is
`config.configVersion`, inlined): migrate when older than current, reject
when newer, pass through when equal. -/
def migratePhase (reg : MigrationRegistry) (config : StrategyConfig) :
    Except BeefyError StrategyConfig :=
  if config.configVersion < CURRENT_CONFIG_VERSION then
    migrateConfig reg config config.configVersion CURRENT_CONFIG_VERSION
  else if config.configVersion > CURRENT_CONFIG_VERSION then
    .error (.configValidation ("Config version " ++ toString config.configVersion ++
      " is newer than supported version " ++ toString CURRENT_CONFIG_VERSION)
      "configVersion")
  else .ok config

/-- `validateAndMigrateConfig` — version dispatch, stamp the current
version onto the migrated document, validate, return.  In the typed
embedding `configVersion` is always present, so the missing-`configVersion`
guard of the source (which protects untyped JSON input) cannot fire and is
elided. -/
def validateAndMigrateConfig (reg : MigrationRegistry) (config : StrategyConfig) :
    Except BeefyError StrategyConfig :=
  match migratePhase reg config with
  | .error e => .error e
  | .ok migratedConfig =>
    match validateConfig { migratedConfig with configVersion := CURRENT_CONFIG_VERSION } with
    | .error e => .error e
    | .ok _ => .ok { migratedConfig with configVersion := CURRENT_CONFIG_VERSION }

/-- `readConfigFile`.  The file read is the store lookup (a missing file
is the `ENOENT` branch); JSON parse errors cannot arise for a stored
config record.  The surrounding `catch` rethrows `ConfigValidationError`s
and wraps any other thrown error — in particular a migration
`GenerationError` — into a `FileSystemError`. -/
def readConfigFile (reg : MigrationRegistry) (store : FileStore) (configPath : String) :
    Except BeefyError StrategyConfig :=
  match storeRead store configPath with
  | none => .error (.fileSystem ("Config file not found: " ++ configPath) configPath)
  | some rawConfig =>
    match validateAndMigrateConfig reg rawConfig with
    | .ok migratedConfig => .ok migratedConfig
    | .error (.configValidation m f) => .error (.configValidation m f)
    | .error e => .error (.fileSystem ("Failed to read config file: " ++ e.message) configPath)

/-- `writeConfigFile` — stamp the current version, validate, ensure the
output directory (a no-op on the store model) and write the serialized
config.  Returns the store after the write. -/
def writeConfigFile (config : StrategyConfig) (store : FileStore) (outputPath : String) :
    Except BeefyError FileStore :=
  let configWithVersion := { config with configVersion := CURRENT_CONFIG_VERSION }
  match validateConfig configWithVersion with
  | .error e => .error e
  | .ok _ => .ok ((outputPath, configWithVersion) :: store)

/-! ## General lemmas about the embedding's combinators -/

/-- A guard chain succeeds iff the guard does not fire and the rest succeeds. -/
theorem check_ok_iff {c : Bool} {e : BeefyError} {r : Except BeefyError Unit} :
    check c e r = .ok () ↔ c = false ∧ r = .ok () := by
  cases c <;> simp [check]

/-- Errors of a guard chain: either the guard fires, or the rest errors. -/
theorem check_error_iff {c : Bool} {e e' : BeefyError} {r : Except BeefyError Unit} :
    check c e r = .error e' ↔ (c = true ∧ e' = e) ∨ (c = false ∧ r = .error e') := by
  cases c <;> simp [check, eq_comm]

/-- Sequencing succeeds iff both statements do. -/
theorem exSeq_ok_iff {a b : Except BeefyError Unit} :
    exSeq a b = .ok () ↔ a = .ok () ∧ b = .ok () := by
  cases a with
  | ok u => cases u; simp [exSeq]
  | error e => simp [exSeq]

/-- `jsIncludes` decides substring containment. -/
theorem jsIncludes_iff_infix {sub s : List Char} :
    jsIncludes sub s = true ↔ sub <:+: s := by
  induction s with
  | nil =>
    simp [jsIncludes, List.isPrefixOf_iff_prefix]
  | cons c rest ih =>
    simp [jsIncludes, List.isPrefixOf_iff_prefix, ih, List.infix_cons_iff]

/-! ## C7 — exact characterization of the address predicate -/

/-- The 22 characters of the class `[0-9a-fA-F]`. -/
def specHexChars : List Char := ("0123456789abcdefABCDEF" : String).data

/-- The property denoted by the spec's `/^0x[0-9a-fA-F]{40}$/`: the
literal prefix `0x` followed by exactly 40 hexadecimal characters of
either case, anchored at both ends. -/
def matchesAddressPattern (s : String) : Prop :=
  ∃ hexPart : List Char,
    s.data = '0' :: 'x' :: hexPart ∧ hexPart.length = 40 ∧ ∀ c ∈ hexPart, c ∈ specHexChars

/-- The code's hex-digit ranges coincide with the enumerated class. -/
theorem isHexDigit_iff_mem {c : Char} : isHexDigit c = true ↔ c ∈ specHexChars := by
  constructor
  · intro h
    simp only [isHexDigit, Bool.or_eq_true, Bool.and_eq_true, decide_eq_true_eq] at h
    have hc : c = Char.ofNat c.toNat := (Char.ofNat_toNat c).symm
    rcases h with (⟨h1, h2⟩ | ⟨h1, h2⟩) | ⟨h1, h2⟩
    · have n1 : 97 ≤ c.toNat := by have hv : ('a' : Char).val ≤ c.val := h1; exact hv
      have n2 : c.toNat ≤ 102 := by have hv : c.val ≤ ('f' : Char).val := h2; exact hv
      have hd : c.toNat = 97 ∨ c.toNat = 98 ∨ c.toNat = 99 ∨ c.toNat = 100 ∨
          c.toNat = 101 ∨ c.toNat = 102 := by omega
      rcases hd with h | h | h | h | h | h <;> rw [h] at hc <;> rw [hc] <;> decide
    · have n1 : 65 ≤ c.toNat := by have hv : ('A' : Char).val ≤ c.val := h1; exact hv
      have n2 : c.toNat ≤ 70 := by have hv : c.val ≤ ('F' : Char).val := h2; exact hv
      have hd : c.toNat = 65 ∨ c.toNat = 66 ∨ c.toNat = 67 ∨ c.toNat = 68 ∨
          c.toNat = 69 ∨ c.toNat = 70 := by omega
      rcases hd with h | h | h | h | h | h <;> rw [h] at hc <;> rw [hc] <;> decide
    · have n1 : 48 ≤ c.toNat := by have hv : ('0' : Char).val ≤ c.val := h1; exact hv
      have n2 : c.toNat ≤ 57 := by have hv : c.val ≤ ('9' : Char).val := h2; exact hv
      have hd : c.toNat = 48 ∨ c.toNat = 49 ∨ c.toNat = 50 ∨ c.toNat = 51 ∨
          c.toNat = 52 ∨ c.toNat = 53 ∨ c.toNat = 54 ∨ c.toNat = 55 ∨
          c.toNat = 56 ∨ c.toNat = 57 := by omega
      rcases hd with h | h | h | h | h | h | h | h | h | h <;>
        rw [h] at hc <;> rw [hc] <;> decide
  · intro h
    exact (by decide : ∀ x ∈ specHexChars, isHexDigit x = true) c h

/-- C7: for every string `s`, `isValidAddress s` is `true` exactly when
`s` matches `/^0x[0-9a-fA-F]{40}$/` — the literal prefix `0x` followed by
exactly 40 hexadecimal characters of either case — and `false` otherwise.
(The function is a Lean function, hence trivially a pure predicate.) -/
theorem claim_C7_isValidAddress_exact (s : String) :
    isValidAddress s = true ↔ matchesAddressPattern s := by
  obtain ⟨data⟩ := s
  match data with
  | [] => simp [isValidAddress, matchesAddressPattern]
  | [c1] => simp [isValidAddress, matchesAddressPattern]
  | c1 :: c2 :: rest =>
    constructor
    · intro h
      simp only [isValidAddress, Bool.and_eq_true, beq_iff_eq, List.all_eq_true] at h
      obtain ⟨⟨⟨h1, h2⟩, h3⟩, h4⟩ := h
      subst h1; subst h2
      exact ⟨rest, rfl, h3, fun c hc => isHexDigit_iff_mem.1 (h4 c hc)⟩
    · rintro ⟨hexPart, heq, hlen, hmem⟩
      replace heq : c1 :: c2 :: rest = '0' :: 'x' :: hexPart := heq
      injection heq with e1 heq
      injection heq with e2 heq
      subst e1; subst e2; subst heq
      simp [isValidAddress, List.all_eq_true, hlen]
      exact fun c hc => isHexDigit_iff_mem.2 (hmem c hc)

/-! ## C8 — exact behaviour of the name-safety predicate -/

/-- `isFilesystemSafeName` is true exactly on non-empty strings with no
`..`/`/`/`\` substring, all characters in the allowed class, and at least
one non-whitespace character. -/
theorem isFilesystemSafeName_eq_true_iff (name : String) :
    isFilesystemSafeName name = true ↔
      name.data ≠ [] ∧
      ¬((".." : String).data <:+: name.data) ∧
      ¬(("/" : String).data <:+: name.data) ∧
      ¬(("\\" : String).data <:+: name.data) ∧
      (∀ c ∈ name.data, isAllowedNameChar c = true) ∧
      ¬(∀ c ∈ name.data, isJsWhitespace c = true) := by
  constructor
  · intro h
    unfold isFilesystemSafeName at h
    split_ifs at h with h1 h2 h3 h4
    simp only [List.isEmpty_iff] at h1
    simp only [Bool.or_eq_true, not_or, jsIncludes_iff_infix] at h2
    simp only [Bool.not_eq_true', Bool.not_eq_false, Bool.and_eq_true,
      List.all_eq_true] at h3
    simp only [List.all_eq_true] at h4
    exact ⟨h1, h2.1.1, h2.1.2, h2.2, h3.2, h4⟩
  · rintro ⟨hne, hi1, hi2, hi3, hall, hws⟩
    unfold isFilesystemSafeName
    split_ifs with h1 h2 h3 h4
    · exact absurd (List.isEmpty_iff.1 h1) hne
    · exfalso
      simp only [Bool.or_eq_true, jsIncludes_iff_infix] at h2
      rcases h2 with (h | h) | h
      · exact hi1 h
      · exact hi2 h
      · exact hi3 h
    · exfalso
      rw [Bool.not_eq_true'] at h3
      have hT : (!name.data.isEmpty && name.data.all isAllowedNameChar) = true := by
        rw [Bool.and_eq_true]
        refine ⟨?_, List.all_eq_true.2 hall⟩
        rw [Bool.not_eq_true']
        rw [Bool.eq_false_iff]
        intro hE; exact hne (List.isEmpty_iff.1 hE)
      rw [hT] at h3
      exact absurd h3 (by decide)
    · exact absurd (List.all_eq_true.1 h4) hws
    · rfl

/-- An allowed character other than the space is not JS whitespace. -/
theorem allowed_not_whitespace {c : Char} (h : isAllowedNameChar c = true) (hs : c ≠ ' ') :
    ¬(isJsWhitespace c = true) := by
  intro hw
  simp only [isJsWhitespace, Bool.or_eq_true, beq_iff_eq, or_assoc] at hw
  rcases hw with hw | hw | hw | hw | hw | hw
  · exact hs hw
  all_goals (subst hw; exact absurd h (by decide))

/-- C8: `isFilesystemSafeName` rejects the empty string, every string
containing `..`, `/` or `\`, every string with a character outside
`[a-zA-Z0-9_\- ]`, and every string consisting only of spaces; it accepts
`"Test-Strategy_123"` and every other non-empty string of allowed
characters having at least one non-space character. -/
theorem claim_C8_isFilesystemSafeName_exact :
    (isFilesystemSafeName "" = false) ∧
    (∀ name : String,
      ((".." : String).data <:+: name.data ∨ ("/" : String).data <:+: name.data ∨
        ("\\" : String).data <:+: name.data) →
      isFilesystemSafeName name = false) ∧
    (∀ (name : String) (c : Char), c ∈ name.data → isAllowedNameChar c = false →
      isFilesystemSafeName name = false) ∧
    (∀ name : String, (∀ c ∈ name.data, c = ' ') → isFilesystemSafeName name = false) ∧
    (isFilesystemSafeName "Test-Strategy_123" = true) ∧
    (∀ name : String, name.data ≠ [] →
      (∀ c ∈ name.data, isAllowedNameChar c = true) →
      (∃ c ∈ name.data, c ≠ ' ') →
      isFilesystemSafeName name = true) := by
  refine ⟨by decide, ?_, ?_, ?_, by decide, ?_⟩
  · intro name h
    cases hres : isFilesystemSafeName name with
    | false => rfl
    | true =>
      have hch := (isFilesystemSafeName_eq_true_iff name).1 hres
      rcases h with h | h | h
      · exact absurd h hch.2.1
      · exact absurd h hch.2.2.1
      · exact absurd h hch.2.2.2.1
  · intro name c hc hbad
    cases hres : isFilesystemSafeName name with
    | false => rfl
    | true =>
      have hch := (isFilesystemSafeName_eq_true_iff name).1 hres
      have hgood := hch.2.2.2.2.1 c hc
      rw [hbad] at hgood
      exact absurd hgood (by decide)
  · intro name hsp
    cases hres : isFilesystemSafeName name with
    | false => rfl
    | true =>
      have hch := (isFilesystemSafeName_eq_true_iff name).1 hres
      exact absurd (fun c hc => by rw [hsp c hc]; decide) hch.2.2.2.2.2
  · rintro name hne hall ⟨c0, hc0, hc0ne⟩
    apply (isFilesystemSafeName_eq_true_iff name).2
    refine ⟨hne, ?_, ?_, ?_, hall, ?_⟩
    · intro hinf
      have hmem : '.' ∈ name.data := hinf.subset (by decide)
      exact absurd (hall _ hmem) (by decide)
    · intro hinf
      have hmem : '/' ∈ name.data := hinf.subset (by decide)
      exact absurd (hall _ hmem) (by decide)
    · intro hinf
      have hmem : '\\' ∈ name.data := hinf.subset (by decide)
      exact absurd (hall _ hmem) (by decide)
    · intro hws
      exact allowed_not_whitespace (hall c0 hc0) hc0ne (hws c0 hc0)

/-! ## C9 — validation ignores vaultMode, complexity and configVersion -/

/-- C9: `validateConfig` never inspects `vaultMode`, `complexity` or
`configVersion`: two configs that differ only in any combination of these
three fields validate to the same result — both succeed, or both throw
the very same field-attributed error. -/
theorem claim_C9_validateConfig_ignores_unvalidated (c : StrategyConfig)
    (vm comp : String) (cv : Int) :
    validateConfig { c with vaultMode := vm, complexity := comp, configVersion := cv } =
      validateConfig c := rfl

/-! ## Soundness of the validator's rule chain -/

/-- `pathElemsCheck` succeeds iff every path element is a valid address. -/
theorem pathElemsCheck_ok_iff {path : List String} {label : String} :
    pathElemsCheck path label = .ok () ↔ ∀ t ∈ path, isValidAddress t = true := by
  induction path with
  | nil => simp [pathElemsCheck]
  | cons t rest ih => simp [pathElemsCheck, check_ok_iff, ih]

/-- What success of one route block guarantees. -/
theorem validateRouteChecks_ok {route : SwapRoute} {rewardToken label : String}
    {expectNative : Bool}
    (h : validateRouteChecks route rewardToken label expectNative = .ok ()) :
    isValidAddress route.«from» = true ∧
    jsToLower route.«from» = jsToLower rewardToken ∧
    isValidAddress route.«to» = true ∧
    (expectNative = true → jsToLower route.«to» = jsToLower NATIVE_TOKEN_ADDRESS) ∧
    route.path ≠ [] ∧
    jsToLower (route.path.getD 0 "") = jsToLower route.«from» ∧
    jsToLower (route.path.getD (route.path.length - 1) "") = jsToLower route.«to» ∧
    (∀ t ∈ route.path, isValidAddress t = true) := by
  unfold validateRouteChecks at h
  rw [check_ok_iff] at h; obtain ⟨h1, h⟩ := h
  rw [check_ok_iff] at h; obtain ⟨h2, h⟩ := h
  rw [check_ok_iff] at h; obtain ⟨h3, h⟩ := h
  rw [check_ok_iff] at h; obtain ⟨h4, h⟩ := h
  rw [check_ok_iff] at h; obtain ⟨h5, h⟩ := h
  rw [check_ok_iff] at h; obtain ⟨h6, h⟩ := h
  rw [check_ok_iff] at h; obtain ⟨h7, h⟩ := h
  refine ⟨by simpa using h1, by simpa using h2, by simpa using h3, ?_, ?_,
    by simpa using h6, by simpa using h7, pathElemsCheck_ok_iff.1 h⟩
  · intro hN
    rw [hN] at h4
    simpa using h4
  · intro hnil
    rw [hnil] at h5
    simp at h5

/-- A family name accepted by `isSupportedStrategyFamily` is `solidly_lp`. -/
theorem supportedFamily_eq {f : String} (h : isSupportedStrategyFamily f = true) :
    f = "solidly_lp" := by
  unfold isSupportedStrategyFamily STRATEGY_FAMILIES at h
  cases hbe : ("solidly_lp" == f) with
  | true => exact (eq_of_beq hbe).symm
  | false => simp [List.find?, hbe] at h

/-- What success of the family-conditional block guarantees for the
`solidly_lp` family. -/
theorem familyChecks_ok {c : StrategyConfig}
    (h : familyChecks c = .ok ()) (hf : c.strategyFamily = "solidly_lp") :
    (jsTruthy c.gaugeAddress = true ∨ jsTruthy c.stakingAddress = true) ∧
    (jsTruthy c.gaugeAddress = true → isValidAddress (c.gaugeAddress.getD "") = true) ∧
    (jsTruthy c.stakingAddress = true → isValidAddress (c.stakingAddress.getD "") = true) := by
  unfold familyChecks at h
  rw [hf] at h
  simp only [beq_self_eq_true, if_true] at h
  rw [check_ok_iff] at h; obtain ⟨hg, h⟩ := h
  rw [check_ok_iff] at h; obtain ⟨h2, h⟩ := h
  rw [check_ok_iff] at h; obtain ⟨h3, _⟩ := h
  refine ⟨?_, ?_, ?_⟩
  · cases hjg : jsTruthy c.gaugeAddress with
    | true => exact Or.inl rfl
    | false =>
      rw [hjg] at hg
      simp at hg
      exact Or.inr hg
  · intro ht
    rw [ht] at h2
    simpa using h2
  · intro ht
    rw [ht] at h3
    simpa using h3

/-- The route invariants asserted by the spec, relative to the config's
reward token: well-formed endpoints and elements, non-empty path whose
first and last entries agree (case-insensitively) with `from`/`to`, and
`from` agreeing (case-insensitively) with the reward token. -/
def routeInvariants (r : SwapRoute) (rewardToken : String) : Prop :=
  isValidAddress r.«from» = true ∧
  isValidAddress r.«to» = true ∧
  (∀ t ∈ r.path, isValidAddress t = true) ∧
  r.path ≠ [] ∧
  jsToLower (r.path.getD 0 "") = jsToLower r.«from» ∧
  jsToLower (r.path.getD (r.path.length - 1) "") = jsToLower r.«to» ∧
  jsToLower r.«from» = jsToLower rewardToken

/-- The invariant bundle the spec asserts of every validated config
(without the stamped version, which the loader adds): all address fields
well-formed — with a *truthily present* (non-empty) gauge/staking address
well-formed, see the C1 correction — the name filesystem-safe, at least
one of gauge/staking truthily present for `solidly_lp`, the three routes
coherent, and `rewardToNative.to` the native sentinel. -/
def validatedInvariants (c : StrategyConfig) : Prop :=
  isValidAddress c.lpTokenAddress = true ∧
  isValidAddress c.rewardToken = true ∧
  (jsTruthy c.gaugeAddress = true → isValidAddress (c.gaugeAddress.getD "") = true) ∧
  (jsTruthy c.stakingAddress = true → isValidAddress (c.stakingAddress.getD "") = true) ∧
  isValidAddress c.beefyCore.keeper = true ∧
  isValidAddress c.beefyCore.vaultFactory = true ∧
  isValidAddress c.beefyCore.feeConfig = true ∧
  isValidAddress c.beefyCore.feeRecipient = true ∧
  isFilesystemSafeName c.name = true ∧
  (c.strategyFamily = "solidly_lp" →
    (jsTruthy c.gaugeAddress = true ∨ jsTruthy c.stakingAddress = true)) ∧
  routeInvariants c.routes.rewardToNative c.rewardToken ∧
  routeInvariants c.routes.rewardToLp0 c.rewardToken ∧
  routeInvariants c.routes.rewardToLp1 c.rewardToken ∧
  jsToLower c.routes.rewardToNative.«to» = jsToLower NATIVE_TOKEN_ADDRESS

/-- Soundness of `validateConfig`: success establishes the invariant
bundle. -/
theorem validateConfig_ok_invariants {c : StrategyConfig}
    (h : validateConfig c = .ok ()) : validatedInvariants c := by
  unfold validateConfig at h
  rw [check_ok_iff] at h; obtain ⟨hnet, h⟩ := h
  rw [check_ok_iff] at h; obtain ⟨hfam, h⟩ := h
  rw [check_ok_iff] at h; obtain ⟨hdex, h⟩ := h
  rw [check_ok_iff] at h; obtain ⟨hname, h⟩ := h
  rw [check_ok_iff] at h; obtain ⟨hlp, h⟩ := h
  rw [check_ok_iff] at h; obtain ⟨hrw, h⟩ := h
  cases hgf : getStrategyFamily c.strategyFamily with
  | none => rw [hgf] at h; exact absurd h (by simp)
  | some d =>
    rw [hgf] at h
    rw [exSeq_ok_iff] at h
    obtain ⟨hfamB, hTail⟩ := h
    unfold beefyCoreAndRouteChecks at hTail
    rw [check_ok_iff] at hTail; obtain ⟨hk, hTail⟩ := hTail
    rw [check_ok_iff] at hTail; obtain ⟨hvf, hTail⟩ := hTail
    rw [check_ok_iff] at hTail; obtain ⟨hfc, hTail⟩ := hTail
    rw [check_ok_iff] at hTail; obtain ⟨hfr, hTail⟩ := hTail
    unfold validateRoutes at hTail
    rw [exSeq_ok_iff] at hTail; obtain ⟨hrN, hTail⟩ := hTail
    rw [exSeq_ok_iff] at hTail; obtain ⟨hr0, hr1⟩ := hTail
    have invN := validateRouteChecks_ok hrN
    have inv0 := validateRouteChecks_ok hr0
    have inv1 := validateRouteChecks_ok hr1
    have hfam' : c.strategyFamily = "solidly_lp" := supportedFamily_eq (by simpa using hfam)
    have hfb := familyChecks_ok hfamB hfam'
    exact ⟨by simpa using hlp, by simpa using hrw, hfb.2.1, hfb.2.2,
      by simpa using hk, by simpa using hvf, by simpa using hfc, by simpa using hfr,
      by simpa using hname, fun _ => hfb.1,
      ⟨invN.1, invN.2.2.1, invN.2.2.2.2.2.2.2, invN.2.2.2.2.1, invN.2.2.2.2.2.1,
        invN.2.2.2.2.2.2.1, invN.2.1⟩,
      ⟨inv0.1, inv0.2.2.1, inv0.2.2.2.2.2.2.2, inv0.2.2.2.2.1, inv0.2.2.2.2.2.1,
        inv0.2.2.2.2.2.2.1, inv0.2.1⟩,
      ⟨inv1.1, inv1.2.2.1, inv1.2.2.2.2.2.2.2, inv1.2.2.2.2.1, inv1.2.2.2.2.2.1,
        inv1.2.2.2.2.2.2.1, inv1.2.1⟩,
      invN.2.2.2.1 rfl⟩

/-- `validateConfig` does not read `configVersion`. -/
theorem validateConfig_configVersion_indep (c : StrategyConfig) (cv : Int) :
    validateConfig { c with configVersion := cv } = validateConfig c := rfl

/-- A supported family has a definition in the table. -/
theorem getStrategyFamily_of_supported {f : String}
    (h : isSupportedStrategyFamily f = true) : ∃ d, getStrategyFamily f = some d := by
  rw [supportedFamily_eq h]
  exact ⟨_, rfl⟩

/-- When the six leading rules pass, `validateConfig` reduces to the
family block followed by the remaining checks. -/
theorem validateConfig_eq_familyTail {c : StrategyConfig}
    (hnet : isSupportedNetwork c.network = true)
    (hfam : isSupportedStrategyFamily c.strategyFamily = true)
    (hdex : SUPPORTED_DEXES.contains c.dex = true)
    (hname : isFilesystemSafeName c.name = true)
    (hlp : isValidAddress c.lpTokenAddress = true)
    (hrw : isValidAddress c.rewardToken = true) :
    validateConfig c = exSeq (familyChecks c) (beefyCoreAndRouteChecks c) := by
  obtain ⟨d, hd⟩ := getStrategyFamily_of_supported hfam
  have hdex' : c.dex ∈ SUPPORTED_DEXES := by simpa using hdex
  unfold validateConfig
  rw [hd]
  simp [check, hnet, hfam, hdex', hname, hlp, hrw]

/-! ## C1 — soundness of a successful load -/

/-- Success of `validateAndMigrateConfig` returns the stamped, validated
document. -/
theorem validateAndMigrateConfig_ok {reg : MigrationRegistry} {c c' : StrategyConfig}
    (h : validateAndMigrateConfig reg c = .ok c') :
    c'.configVersion = CURRENT_CONFIG_VERSION ∧ validateConfig c' = .ok () := by
  unfold validateAndMigrateConfig at h
  cases hm : migratePhase reg c with
  | error e => rw [hm] at h; exact absurd h (by simp)
  | ok m =>
    rw [hm] at h
    dsimp only at h
    cases hv : validateConfig { m with configVersion := CURRENT_CONFIG_VERSION } with
    | error e => rw [hv] at h; exact absurd h (by simp)
    | ok u =>
      cases u
      rw [hv] at h
      injection h with h
      subst h
      exact ⟨rfl, hv⟩

/-- C1 (amended): whenever `validateAndMigrateConfig` — and hence
`readConfigFile` — returns a config, that config satisfies every stated
invariant (all address formats, filesystem-safe name, the gauge/staking
disjunction for `solidly_lp`, route coherence with the reward token and
the native sentinel) and carries the current `configVersion` 1; presence
of `gaugeAddress`/`stakingAddress` is read truthily, so a
present-but-empty-string field counts as absent and is exempt from the
format invariant. -/
theorem claim_C1_loader_soundness (reg : MigrationRegistry) (c c' : StrategyConfig)
    (h : validateAndMigrateConfig reg c = .ok c') :
    validatedInvariants c' ∧ c'.configVersion = CURRENT_CONFIG_VERSION ∧
    (∀ (store : FileStore) (p : String), storeRead store p = some c →
      readConfigFile reg store p = .ok c') := by
  obtain ⟨hver, hval⟩ := validateAndMigrateConfig_ok h
  refine ⟨validateConfig_ok_invariants hval, hver, ?_⟩
  intro store p hsp
  unfold readConfigFile
  rw [hsp]
  dsimp only
  rw [h]

/-- A concrete fully-valid configuration (the `createValidConfig` fixture
of the repository's test suite). -/
def sampleConfig : StrategyConfig :=
  { configVersion := 1
    name := "Test Strategy"
    network := "optimism"
    strategyFamily := "solidly_lp"
    dex := "velodrome"
    lpTokenAddress := "0x1234567890123456789012345678901234567890"
    gaugeAddress := some "0xabcdefabcdefabcdefabcdefabcdefabcdefabcd"
    stakingAddress := none
    rewardToken := "0x9876543210987654321098765432109876543210"
    routes :=
      { rewardToNative :=
          { «from» := "0x9876543210987654321098765432109876543210"
            «to» := "0xEeeeeEeeeEeEeeEeEeEeeEEEeeeeEeeeeeeeEEeE"
            path := ["0x9876543210987654321098765432109876543210",
                     "0xEeeeeEeeeEeEeeEeEeEeeEEEeeeeEeeeeeeeEEeE"] }
        rewardToLp0 :=
          { «from» := "0x9876543210987654321098765432109876543210"
            «to» := "0x1111111111111111111111111111111111111111"
            path := ["0x9876543210987654321098765432109876543210",
                     "0x1111111111111111111111111111111111111111"] }
        rewardToLp1 :=
          { «from» := "0x9876543210987654321098765432109876543210"
            «to» := "0x2222222222222222222222222222222222222222"
            path := ["0x9876543210987654321098765432109876543210",
                     "0x2222222222222222222222222222222222222222"] } }
    vaultMode := "strategy-only"
    beefyCore :=
      { keeper := "0x3333333333333333333333333333333333333333"
        vaultFactory := "0x4444444444444444444444444444444444444444"
        feeConfig := "0x5555555555555555555555555555555555555555"
        feeRecipient := "0x6666666666666666666666666666666666666666" }
    complexity := "basic" }

/-- `sampleConfig` with a present-but-empty `gaugeAddress` and a valid
`stakingAddress`. -/
def emptyGaugeConfig : StrategyConfig :=
  { sampleConfig with
    gaugeAddress := some ""
    stakingAddress := some "0xabcdefabcdefabcdefabcdefabcdefabcdefabcd" }

/-- C1 counterexample: loading `emptyGaugeConfig` succeeds, yet its
`gaugeAddress` is present (the field is set) and fails the address
format — so "every present gaugeAddress matches the 0x-40-hex format"
is false as stated. -/
theorem claim_C1_counterexample :
    validateAndMigrateConfig [] emptyGaugeConfig = .ok emptyGaugeConfig ∧
    emptyGaugeConfig.gaugeAddress.isSome = true ∧
    isValidAddress (emptyGaugeConfig.gaugeAddress.getD "") = false := by
  refine ⟨by decide, rfl, rfl⟩

/-- Evaluation witness for the C1 theorem at `sampleConfig`. -/
theorem claim_C1_loader_soundness_witness :
    validatedInvariants sampleConfig ∧
    sampleConfig.configVersion = CURRENT_CONFIG_VERSION ∧
    (∀ (store : FileStore) (p : String), storeRead store p = some sampleConfig →
      readConfigFile [] store p = .ok sampleConfig) :=
  claim_C1_loader_soundness [] sampleConfig sampleConfig (by decide)

/-! ## C5 — forward compatibility is never assumed -/

/-- C5: a document whose declared `configVersion` exceeds the supported
version 1 is rejected by `validateAndMigrateConfig` — and hence by
`readConfigFile` — with the version-mismatch `ConfigValidationError` on
field `configVersion`; the result does not depend on the migration
registry, so no migration step is consulted or invoked. -/
theorem claim_C5_newer_version_rejected (reg : MigrationRegistry) (c : StrategyConfig)
    (h : c.configVersion > CURRENT_CONFIG_VERSION) :
    validateAndMigrateConfig reg c = .error (.configValidation
      ("Config version " ++ toString c.configVersion ++
        " is newer than supported version " ++ toString CURRENT_CONFIG_VERSION)
      "configVersion") ∧
    (∀ (store : FileStore) (p : String), storeRead store p = some c →
      readConfigFile reg store p = .error (.configValidation
        ("Config version " ++ toString c.configVersion ++
          " is newer than supported version " ++ toString CURRENT_CONFIG_VERSION)
        "configVersion")) := by
  have hm : migratePhase reg c = .error (.configValidation
      ("Config version " ++ toString c.configVersion ++
        " is newer than supported version " ++ toString CURRENT_CONFIG_VERSION)
      "configVersion") := by
    unfold migratePhase
    rw [if_neg (by omega), if_pos h]
  have h1 : validateAndMigrateConfig reg c = .error (.configValidation
      ("Config version " ++ toString c.configVersion ++
        " is newer than supported version " ++ toString CURRENT_CONFIG_VERSION)
      "configVersion") := by
    unfold validateAndMigrateConfig
    rw [hm]
  refine ⟨h1, ?_⟩
  intro store p hsp
  unfold readConfigFile
  rw [hsp]
  dsimp only
  rw [h1]

/-- Evaluation witness for C5 at version 5 (the spec's scenario). -/
theorem claim_C5_newer_version_rejected_witness :
    validateAndMigrateConfig [] { sampleConfig with configVersion := 5 } =
      .error (.configValidation
        ("Config version " ++ toString ({ sampleConfig with configVersion := (5 : Int) }).configVersion ++
          " is newer than supported version " ++ toString CURRENT_CONFIG_VERSION)
        "configVersion") ∧
    (∀ (store : FileStore) (p : String),
      storeRead store p = some { sampleConfig with configVersion := 5 } →
      readConfigFile [] store p = .error (.configValidation
        ("Config version " ++ toString ({ sampleConfig with configVersion := (5 : Int) }).configVersion ++
          " is newer than supported version " ++ toString CURRENT_CONFIG_VERSION)
        "configVersion")) :=
  claim_C5_newer_version_rejected [] { sampleConfig with configVersion := 5 } (by decide)

/-! ## C4 — write/read round-trip -/

/-- C4: writing a validation-passing config and reading the same path
back succeeds and returns the config unchanged except for
`configVersion`, which is stamped to the current version 1. -/
theorem claim_C4_write_read_roundtrip (reg : MigrationRegistry) (store : FileStore)
    (c : StrategyConfig) (p : String) (h : validateConfig c = .ok ()) :
    ∃ store', writeConfigFile c store p = .ok store' ∧
      readConfigFile reg store' p = .ok { c with configVersion := CURRENT_CONFIG_VERSION } := by
  have hval1 : validateConfig { c with configVersion := CURRENT_CONFIG_VERSION } = .ok () := by
    rw [validateConfig_configVersion_indep]; exact h
  have hw : writeConfigFile c store p =
      .ok ((p, { c with configVersion := CURRENT_CONFIG_VERSION }) :: store) := by
    unfold writeConfigFile
    dsimp only
    rw [hval1]
  refine ⟨_, hw, ?_⟩
  have hsr : storeRead ((p, { c with configVersion := CURRENT_CONFIG_VERSION }) :: store) p =
      some { c with configVersion := CURRENT_CONFIG_VERSION } := by
    unfold storeRead
    simp [List.find?]
  have hvam : validateAndMigrateConfig reg { c with configVersion := CURRENT_CONFIG_VERSION } =
      .ok { c with configVersion := CURRENT_CONFIG_VERSION } := by
    unfold validateAndMigrateConfig migratePhase
    have hlt : ¬(({ c with configVersion := CURRENT_CONFIG_VERSION } : StrategyConfig).configVersion
        < CURRENT_CONFIG_VERSION) := by simp
    have hgt : ¬(({ c with configVersion := CURRENT_CONFIG_VERSION } : StrategyConfig).configVersion
        > CURRENT_CONFIG_VERSION) := by simp
    rw [if_neg hlt, if_neg hgt]
    dsimp only
    rw [hval1]
  unfold readConfigFile
  rw [hsr]
  dsimp only
  rw [hvam]

/-- Evaluation witness for C4 at `sampleConfig`. -/
theorem claim_C4_write_read_roundtrip_witness :
    ∃ store', writeConfigFile sampleConfig [] "strategy-config.json" = .ok store' ∧
      readConfigFile [] store' "strategy-config.json" =
        .ok { sampleConfig with configVersion := CURRENT_CONFIG_VERSION } :=
  claim_C4_write_read_roundtrip [] [] sampleConfig "strategy-config.json" (by decide)

/-! ## C6 — the family-conditional gauge/staking rule -/

/-- C6 (amended): for a `solidly_lp` config passing the six preceding
rules: (a) both fields absent is rejected on field `gaugeAddress` with the
one-of-the-two-required message; (b) both present and well-formed is not
rejected by this rule — validation proceeds to (and is decided by) the
remaining rules; (c) a gauge address that is present *with a non-empty
value* but malformed is rejected on `gaugeAddress`; (d) likewise a
non-empty malformed staking address is rejected on `stakingAddress`
(when the gauge check does not fire first).  A present-but-empty-string
field is treated as absent by the code's truthiness test — the amendment
the counterexample forces. -/
theorem claim_C6_gauge_staking_rule (c : StrategyConfig)
    (hnet : isSupportedNetwork c.network = true)
    (hfam : isSupportedStrategyFamily c.strategyFamily = true)
    (hdex : SUPPORTED_DEXES.contains c.dex = true)
    (hname : isFilesystemSafeName c.name = true)
    (hlp : isValidAddress c.lpTokenAddress = true)
    (hrw : isValidAddress c.rewardToken = true) :
    (c.gaugeAddress = none → c.stakingAddress = none →
      validateConfig c = .error (.configValidation
        "Either gaugeAddress or stakingAddress must be provided for solidly_lp strategy family"
        "gaugeAddress")) ∧
    (c.gaugeAddress.isSome = true → isValidAddress (c.gaugeAddress.getD "") = true →
      c.stakingAddress.isSome = true → isValidAddress (c.stakingAddress.getD "") = true →
      validateConfig c = beefyCoreAndRouteChecks c) ∧
    (jsTruthy c.gaugeAddress = true → isValidAddress (c.gaugeAddress.getD "") = false →
      validateConfig c = .error (.configValidation
        ("Invalid gauge address format: " ++ c.gaugeAddress.getD "") "gaugeAddress")) ∧
    (jsTruthy c.stakingAddress = true → isValidAddress (c.stakingAddress.getD "") = false →
      (jsTruthy c.gaugeAddress = true → isValidAddress (c.gaugeAddress.getD "") = true) →
      validateConfig c = .error (.configValidation
        ("Invalid staking address format: " ++ c.stakingAddress.getD "") "stakingAddress")) := by
  have hVT := validateConfig_eq_familyTail hnet hfam hdex hname hlp hrw
  have hsf : c.strategyFamily = "solidly_lp" := supportedFamily_eq hfam
  refine ⟨?_, ?_, ?_, ?_⟩
  · intro hga hsa
    rw [hVT]
    have hfc : familyChecks c = .error (.configValidation
        "Either gaugeAddress or stakingAddress must be provided for solidly_lp strategy family"
        "gaugeAddress") := by
      unfold familyChecks
      rw [hsf, hga, hsa]
      simp [check, jsTruthy]
    rw [hfc]
    rfl
  · intro hgs hgv hss hsv
    rw [hVT]
    obtain ⟨g, hg⟩ := Option.isSome_iff_exists.1 hgs
    obtain ⟨s, hs⟩ := Option.isSome_iff_exists.1 hss
    rw [hg] at hgv
    rw [hs] at hsv
    simp only [Option.getD_some] at hgv hsv
    have hgne : (g == "") = false := by
      cases hbe : (g == "") with
      | false => rfl
      | true =>
        rw [eq_of_beq hbe] at hgv
        exact absurd hgv (by decide)
    have hsne : (s == "") = false := by
      cases hbe : (s == "") with
      | false => rfl
      | true =>
        rw [eq_of_beq hbe] at hsv
        exact absurd hsv (by decide)
    have hfc : familyChecks c = .ok () := by
      unfold familyChecks
      rw [hsf, hg, hs]
      simp [check, jsTruthy, hgne, hsne, hgv, hsv]
    rw [hfc]
    rfl
  · intro hgt hgv
    rw [hVT]
    have hfc : familyChecks c = .error (.configValidation
        ("Invalid gauge address format: " ++ c.gaugeAddress.getD "") "gaugeAddress") := by
      unfold familyChecks
      rw [hsf]
      simp [check, hgt, hgv]
    rw [hfc]
    rfl
  · intro hst hsv hgi
    rw [hVT]
    have hfc : familyChecks c = .error (.configValidation
        ("Invalid staking address format: " ++ c.stakingAddress.getD "") "stakingAddress") := by
      unfold familyChecks
      rw [hsf]
      cases hgt : jsTruthy c.gaugeAddress with
      | true => simp [check, hst, hsv, hgt, hgi hgt]
      | false => simp [check, hst, hsv, hgt]
    rw [hfc]
    rfl

/-- C6 counterexample: `emptyGaugeConfig` passes every preceding rule and
has a present (`isSome`) but malformed `gaugeAddress`, yet `validateConfig`
accepts it — "whichever of the two is present but malformed triggers a
ConfigValidationError on that field" is false as stated. -/
theorem claim_C6_counterexample :
    isSupportedNetwork emptyGaugeConfig.network = true ∧
    isSupportedStrategyFamily emptyGaugeConfig.strategyFamily = true ∧
    SUPPORTED_DEXES.contains emptyGaugeConfig.dex = true ∧
    isFilesystemSafeName emptyGaugeConfig.name = true ∧
    isValidAddress emptyGaugeConfig.lpTokenAddress = true ∧
    isValidAddress emptyGaugeConfig.rewardToken = true ∧
    emptyGaugeConfig.strategyFamily = "solidly_lp" ∧
    emptyGaugeConfig.gaugeAddress.isSome = true ∧
    isValidAddress (emptyGaugeConfig.gaugeAddress.getD "") = false ∧
    validateConfig emptyGaugeConfig = .ok () := by
  decide

/-- Evaluation witness for the C6 theorem at `sampleConfig`. -/
theorem claim_C6_gauge_staking_rule_witness :
    (sampleConfig.gaugeAddress = none → sampleConfig.stakingAddress = none →
      validateConfig sampleConfig = .error (.configValidation
        "Either gaugeAddress or stakingAddress must be provided for solidly_lp strategy family"
        "gaugeAddress")) ∧
    (sampleConfig.gaugeAddress.isSome = true →
      isValidAddress (sampleConfig.gaugeAddress.getD "") = true →
      sampleConfig.stakingAddress.isSome = true →
      isValidAddress (sampleConfig.stakingAddress.getD "") = true →
      validateConfig sampleConfig = beefyCoreAndRouteChecks sampleConfig) ∧
    (jsTruthy sampleConfig.gaugeAddress = true →
      isValidAddress (sampleConfig.gaugeAddress.getD "") = false →
      validateConfig sampleConfig = .error (.configValidation
        ("Invalid gauge address format: " ++ sampleConfig.gaugeAddress.getD "") "gaugeAddress")) ∧
    (jsTruthy sampleConfig.stakingAddress = true →
      isValidAddress (sampleConfig.stakingAddress.getD "") = false →
      (jsTruthy sampleConfig.gaugeAddress = true →
        isValidAddress (sampleConfig.gaugeAddress.getD "") = true) →
      validateConfig sampleConfig = .error (.configValidation
        ("Invalid staking address format: " ++ sampleConfig.stakingAddress.getD "")
        "stakingAddress")) :=
  claim_C6_gauge_staking_rule sampleConfig (by decide) (by decide) (by decide) (by decide)
    (by decide) (by decide)

/-! ## Decimal rendering of version numbers

The registry keys are template-literal strings `${from}->${to}`.  To
reason about key collisions we relate the standard library's rendering
(`Nat.repr`, fuel-based) to `Nat.digits` and prove it injective. -/

/-- The decimal character rendering of a natural number. -/
def decRender (n : Nat) : List Char :=
  if n = 0 then ['0'] else ((Nat.digits 10 n).map Nat.digitChar).reverse

/-- A one-digit number renders as its digit character. -/
theorem decRender_single {n : Nat} (h : n < 10) : decRender n = [Nat.digitChar n] := by
  unfold decRender
  by_cases h0 : n = 0
  · subst h0
    decide
  · rw [if_neg h0]
    rw [Nat.digits_def' (by norm_num : (1 : ℕ) < 10) (Nat.pos_of_ne_zero h0)]
    rw [Nat.div_eq_of_lt h]
    simp [Nat.mod_eq_of_lt h]

/-- Peeling the last digit off the rendering. -/
theorem decRender_step {n : Nat} (h : ¬n / 10 = 0) :
    decRender n = decRender (n / 10) ++ [Nat.digitChar (n % 10)] := by
  have hn : n ≠ 0 := by
    intro h0
    subst h0
    exact h rfl
  unfold decRender
  rw [if_neg hn, if_neg h]
  rw [Nat.digits_def' (by norm_num : (1 : ℕ) < 10) (Nat.pos_of_ne_zero hn)]
  simp

/-- The fuel-based core of `Nat.repr` computes `decRender`. -/
theorem toDigitsCore_eq_decRender :
    ∀ (n : Nat) (fuel : Nat) (acc : List Char), n < fuel →
      Nat.toDigitsCore 10 fuel n acc = decRender n ++ acc := by
  intro n
  induction n using Nat.strong_induction_on with
  | _ n ih =>
    intro fuel acc hfuel
    cases fuel with
    | zero => omega
    | succ fuel =>
      simp only [Nat.toDigitsCore]
      by_cases h0 : n / 10 = 0
      · rw [if_pos h0]
        have hlt : n < 10 := by omega
        rw [decRender_single hlt, Nat.mod_eq_of_lt hlt]
        rfl
      · rw [if_neg h0]
        have hne : n ≠ 0 := by
          intro hz
          subst hz
          exact h0 rfl
        have hdiv : n / 10 < n := Nat.div_lt_self (Nat.pos_of_ne_zero hne) (by norm_num)
        rw [ih (n / 10) hdiv fuel (Nat.digitChar (n % 10) :: acc) (by omega)]
        rw [decRender_step h0]
        simp

/-- `Nat.repr` is the decimal rendering. -/
theorem repr_eq_decRender (n : Nat) : Nat.repr n = String.mk (decRender n) := by
  unfold Nat.repr Nat.toDigits
  rw [toDigitsCore_eq_decRender n (n + 1) [] (by omega)]
  simp [List.asString]

/-- `digitChar` is injective on decimal digits. -/
theorem digitChar_inj {d e : Nat} (hd : d < 10) (he : e < 10)
    (h : Nat.digitChar d = Nat.digitChar e) : d = e := by
  interval_cases d <;> interval_cases e <;> revert h <;> decide

/-- `digitChar` of a decimal digit is never `>`. -/
theorem digitChar_ne_gt {d : Nat} (h : d < 10) : Nat.digitChar d ≠ '>' := by
  interval_cases d <;> decide

/-- `digitChar` of a decimal digit is never `-`. -/
theorem digitChar_ne_dash {d : Nat} (h : d < 10) : Nat.digitChar d ≠ '-' := by
  interval_cases d <;> decide

/-- Every character of a decimal rendering is a digit character. -/
theorem decRender_mem {n : Nat} {c : Char} (h : c ∈ decRender n) :
    ∃ d, d < 10 ∧ c = Nat.digitChar d := by
  unfold decRender at h
  split_ifs at h with h0
  · simp at h
    exact ⟨0, by omega, by rw [h]; rfl⟩
  · simp only [List.mem_reverse, List.mem_map] at h
    obtain ⟨d, hd, hrfl⟩ := h
    exact ⟨d, Nat.digits_lt_base (by norm_num) hd, hrfl.symm⟩

/-- A decimal rendering never contains `>`. -/
theorem gt_not_mem_decRender (n : Nat) : '>' ∉ decRender n := by
  intro h
  obtain ⟨d, hd, he⟩ := decRender_mem h
  exact digitChar_ne_gt hd he.symm

/-- A decimal rendering never contains `-`. -/
theorem dash_not_mem_decRender (n : Nat) : '-' ∉ decRender n := by
  intro h
  obtain ⟨d, hd, he⟩ := decRender_mem h
  exact digitChar_ne_dash hd he.symm

/-- Mapping `digitChar` over digit lists is injective. -/
theorem map_digitChar_inj : ∀ {l1 l2 : List Nat},
    (∀ x ∈ l1, x < 10) → (∀ x ∈ l2, x < 10) →
    l1.map Nat.digitChar = l2.map Nat.digitChar → l1 = l2 := by
  intro l1
  induction l1 with
  | nil =>
    intro l2 _ _ h
    cases l2 with
    | nil => rfl
    | cons b t2 => simp at h
  | cons a t ih =>
    intro l2 h1 h2 h
    cases l2 with
    | nil => simp at h
    | cons b t2 =>
      simp only [List.map_cons, List.cons.injEq] at h
      obtain ⟨hab, ht⟩ := h
      have hae : a = b :=
        digitChar_inj (h1 a (by simp)) (h2 b (by simp)) hab
      subst hae
      rw [ih (fun x hx => h1 x (by simp [hx])) (fun x hx => h2 x (by simp [hx])) ht]

/-- The decimal rendering is injective. -/
theorem decRender_inj : ∀ {m n : Nat}, decRender m = decRender n → m = n := by
  have key : ∀ {n : Nat}, n ≠ 0 → decRender n = ['0'] → False := by
    intro n hn h
    unfold decRender at h
    rw [if_neg hn] at h
    have h' : (Nat.digits 10 n).map Nat.digitChar = ['0'] := by
      have := congrArg List.reverse h
      simpa using this
    have hd : Nat.digits 10 n = [0] := by
      apply map_digitChar_inj (fun x hx => Nat.digits_lt_base (by norm_num) hx)
        (by intro x hx; simp at hx; omega)
      simpa using h'
    have := Nat.ofDigits_digits 10 n
    rw [hd] at this
    simp [Nat.ofDigits] at this
    exact hn this.symm
  intro m n h
  by_cases hm : m = 0 <;> by_cases hn : n = 0
  · omega
  · subst hm
    exact absurd (by simpa [decRender] using h.symm) (fun hh => key hn hh)
  · subst hn
    exact absurd (by simpa [decRender] using h) (fun hh => key hm hh)
  · unfold decRender at h
    rw [if_neg hm, if_neg hn] at h
    have h' := congrArg List.reverse h
    simp only [List.reverse_reverse] at h'
    have hd : Nat.digits 10 m = Nat.digits 10 n :=
      map_digitChar_inj (fun x hx => Nat.digits_lt_base (by norm_num) hx)
        (fun x hx => Nat.digits_lt_base (by norm_num) hx) h'
    have h1 := Nat.ofDigits_digits 10 m
    have h2 := Nat.ofDigits_digits 10 n
    rw [hd] at h1
    rw [h2] at h1
    exact h1.symm

/-- The decimal rendering of an integer: a possible sign followed by the
digits (`Int.negSucc m` is the integer `-(m+1)`). -/
def intRender : Int → List Char
  | .ofNat m => decRender m
  | .negSucc m => '-' :: decRender (m + 1)

/-- `toString` on `Int` is the decimal rendering. -/
theorem toString_int_eq (i : Int) : toString i = String.mk (intRender i) := by
  cases i with
  | ofNat m =>
    show Nat.repr m = _
    rw [repr_eq_decRender]
    rfl
  | negSucc m =>
    show "-" ++ Nat.repr (m + 1) = _
    rw [repr_eq_decRender]
    rfl

/-- The integer rendering never contains `>`. -/
theorem gt_not_mem_intRender (i : Int) : '>' ∉ intRender i := by
  cases i with
  | ofNat m => exact gt_not_mem_decRender m
  | negSucc m =>
    intro h
    simp only [intRender, List.mem_cons] at h
    rcases h with h | h
    · exact absurd h (by decide)
    · exact gt_not_mem_decRender (m + 1) h

/-- The integer rendering is injective. -/
theorem intRender_inj : ∀ {i j : Int}, intRender i = intRender j → i = j := by
  intro i j h
  cases i with
  | ofNat m =>
    cases j with
    | ofNat n => exact congrArg Int.ofNat (decRender_inj (by simpa [intRender] using h))
    | negSucc n =>
      exfalso
      simp only [intRender] at h
      have : '-' ∈ decRender m := by
        rw [h]
        exact List.mem_cons_self _ _
      exact dash_not_mem_decRender m this
  | negSucc m =>
    cases j with
    | ofNat n =>
      exfalso
      simp only [intRender] at h
      have : '-' ∈ decRender n := by
        rw [← h]
        exact List.mem_cons_self _ _
      exact dash_not_mem_decRender n this
    | negSucc n =>
      simp only [intRender, List.cons.injEq, true_and] at h
      have hmn : m = n := by
        have := decRender_inj h
        omega
      rw [hmn]

/-- Splitting a character list at a unique `>`. -/
theorem append_gt_inj : ∀ {a c : List Char} {b d : List Char},
    '>' ∉ a → '>' ∉ c → a ++ '>' :: b = c ++ '>' :: d → a = c ∧ b = d := by
  intro a
  induction a with
  | nil =>
    intro c b d _ hc h
    cases c with
    | nil => simpa using h
    | cons y ys =>
      exfalso
      simp only [List.nil_append, List.cons_append, List.cons.injEq] at h
      exact hc (h.1 ▸ List.mem_cons_self y ys)
  | cons x xs ih =>
    intro c b d ha hc h
    cases c with
    | nil =>
      exfalso
      simp only [List.cons_append, List.nil_append, List.cons.injEq] at h
      exact ha (h.1 ▸ List.mem_cons_self x xs)
    | cons y ys =>
      simp only [List.cons_append, List.cons.injEq] at h
      obtain ⟨hxy, hrest⟩ := h
      have hxs : '>' ∉ xs := fun hm => ha (List.mem_cons_of_mem _ hm)
      have hys : '>' ∉ ys := fun hm => hc (List.mem_cons_of_mem _ hm)
      obtain ⟨h1, h2⟩ := ih hxs hys hrest
      exact ⟨by rw [hxy, h1], h2⟩

/-- Registry keys determine their version pair: `"f->t" = "v->w"` forces
`f = v` and `t = w`. -/
theorem migrationKey_inj {f t v w : Int} (h : migrationKey f t = migrationKey v w) :
    f = v ∧ t = w := by
  have hd : intRender f ++ '-' :: '>' :: intRender t =
      intRender v ++ '-' :: '>' :: intRender w := by
    have hdata := congrArg String.data h
    simpa [migrationKey, toString_int_eq] using hdata
  have h2 : (intRender f ++ ['-']) ++ '>' :: intRender t =
      (intRender v ++ ['-']) ++ '>' :: intRender w := by
    simpa [List.append_assoc] using hd
  have hnf : '>' ∉ intRender f ++ ['-'] := by
    intro hm
    rcases List.mem_append.1 hm with hm | hm
    · exact gt_not_mem_intRender f hm
    · simp at hm
  have hnv : '>' ∉ intRender v ++ ['-'] := by
    intro hm
    rcases List.mem_append.1 hm with hm | hm
    · exact gt_not_mem_intRender v hm
    · simp at hm
  obtain ⟨hfc, htc⟩ := append_gt_inj hnf hnv h2
  have hf : intRender f = intRender v := by
    have hrev := congrArg List.reverse hfc
    simp only [List.reverse_append, List.reverse_cons, List.reverse_nil, List.nil_append,
      List.singleton_append, List.cons.injEq, true_and] at hrev
    exact List.reverse_injective hrev
  exact ⟨intRender_inj hf, intRender_inj htc⟩

/-! ## C2 — downgrades always fail -/

/-- C2: for every document and every version pair with `fromVersion`
strictly greater than `toVersion`, `migrateConfig` throws the downgrade
`GenerationError` (step `migration`) — the spec's `MigrationError`.  The
result is the same for every registry state, including one with
registered transforms covering the downgrade, so no registered transform
is ever consulted or invoked. -/
theorem claim_C2_downgrade_always_fails (reg : MigrationRegistry) (doc : StrategyConfig)
    (f t : Int) (h : t < f) :
    migrateConfig reg doc f t = .error (.generation
      ("Cannot downgrade config from version " ++ toString f ++ " to " ++ toString t ++
        ". Downgrades are not supported.") "migration") := by
  unfold migrateConfig
  have hne : ¬((f == t) = true) := by
    simp only [beq_iff_eq]
    omega
  rw [if_neg hne, if_pos (by omega : f > t)]

/-- Identity transform used for registry states in witnesses. -/
def idMigration : MigrationFunction := fun config => .ok config

/-- Evaluation witness for C2 at the spec's `migrateConfig(doc, 3, 1)`
scenario, with transforms registered — including one keyed for the
downgrade itself. -/
theorem claim_C2_downgrade_always_fails_witness :
    migrateConfig (registerMigration (registerMigration [] 3 1 idMigration) 2 3 idMigration)
      sampleConfig 3 1 = .error (.generation
        ("Cannot downgrade config from version " ++ toString (3 : Int) ++ " to " ++
          toString (1 : Int) ++ ". Downgrades are not supported.") "migration") :=
  claim_C2_downgrade_always_fails _ sampleConfig 3 1 (by decide)

/-! ## C3 — migration composition -/

/-- Left-to-right composition of single-step transforms applied directly
to a document (stopping at the first thrown error). -/
def applyChain : List MigrationFunction → StrategyConfig → Except String StrategyConfig
  | [], doc => .ok doc
  | fn :: fns, doc =>
    match fn doc with
    | .ok next => applyChain fns next
    | .error e => .error e

/-- The consecutive steps starting at version `v` are registered as the
given transforms. -/
def stepsRegistered (reg : MigrationRegistry) : Int → List MigrationFunction → Prop
  | _, [] => True
  | v, fn :: fns =>
    registryGet reg (migrationKey v (v + 1)) = some fn ∧ stepsRegistered reg (v + 1) fns

/-- The migration loop computes the composition of the registered steps. -/
theorem migrateLoop_chain {reg : MigrationRegistry} :
    ∀ (ts : List MigrationFunction) (v : Int) (doc d : StrategyConfig),
      stepsRegistered reg v ts → applyChain ts doc = .ok d →
      migrateLoop reg ts.length v doc = .ok d := by
  intro ts
  induction ts with
  | nil =>
    intro v doc d _ hch
    simp only [applyChain] at hch
    injection hch with hd
    rw [← hd]
    rfl
  | cons fn fns ih =>
    intro v doc d hreg hch
    obtain ⟨hr1, hr2⟩ := hreg
    simp only [applyChain] at hch
    cases hfd : fn doc with
    | error e =>
      rw [hfd] at hch
      exact absurd hch (by simp)
    | ok next =>
      rw [hfd] at hch
      dsimp only at hch
      simp only [List.length_cons, migrateLoop]
      rw [hr1]
      dsimp only
      rw [hfd]
      dsimp only
      exact ih (v + 1) next d hr2 hch

/-- C3: when every consecutive single-step transform from `fromVersion`
up to `toVersion = fromVersion + k` is registered and their left-to-right
composition applied directly to the document succeeds, `migrateConfig`
returns exactly that composition with the final document's
`configVersion` stamped to `toVersion`. -/
theorem claim_C3_migration_composition (reg : MigrationRegistry) (doc d : StrategyConfig)
    (f : Int) (ts : List MigrationFunction) (hne : ts ≠ [])
    (hreg : stepsRegistered reg f ts) (hch : applyChain ts doc = .ok d) :
    migrateConfig reg doc f (f + ts.length) =
      .ok { d with configVersion := f + ts.length } := by
  have hlen : 0 < ts.length := List.length_pos.2 hne
  unfold migrateConfig
  have h1 : ¬((f == (f + ts.length : Int)) = true) := by
    simp only [beq_iff_eq]
    omega
  have h2 : ¬(f > f + (ts.length : Int)) := by omega
  rw [if_neg h1, if_neg h2]
  have hfuel : ((f + ts.length : Int) - f).toNat = ts.length := by omega
  rw [hfuel]
  rw [migrateLoop_chain ts f doc d hreg hch]

/-- Concrete step `1 -> 2` for the C3 witness. -/
def stepOneToTwo : MigrationFunction :=
  fun config => .ok { config with complexity := "intermediate" }

/-- Concrete step `2 -> 3` for the C3 witness. -/
def stepTwoToThree : MigrationFunction :=
  fun config => .ok { config with complexity := "advanced" }

/-- Evaluation witness for C3: with `1->2` and `2->3` registered,
`migrateConfig(doc, 1, 3)` is the direct composition, stamped. -/
theorem claim_C3_migration_composition_witness :
    migrateConfig (registerMigration (registerMigration [] 1 2 stepOneToTwo) 2 3 stepTwoToThree)
      sampleConfig 1 (1 + ([stepOneToTwo, stepTwoToThree] : List MigrationFunction).length) =
      .ok { { sampleConfig with complexity := "advanced" } with
            configVersion := 1 + ([stepOneToTwo, stepTwoToThree] : List MigrationFunction).length } :=
  claim_C3_migration_composition _ sampleConfig { sampleConfig with complexity := "advanced" }
    1 [stepOneToTwo, stepTwoToThree] (by simp) ⟨rfl, rfl, trivial⟩ rfl

/-! ## C10 — non-consecutive registrations are unreachable -/

/-- C10: `registerMigration` accepts any version pair, but `migrateConfig`
only ever consults keys of the consecutive form `v->v+1`; registering a
transform whose `toVersion` is not `fromVersion + 1` therefore never
changes any result of `migrateConfig` — it is silently never invoked. -/
theorem claim_C10_nonconsecutive_registration_inert (reg : MigrationRegistry)
    (f0 t0 : Int) (fn : MigrationFunction) (doc : StrategyConfig) (f t : Int)
    (h : t0 ≠ f0 + 1) :
    migrateConfig (registerMigration reg f0 t0 fn) doc f t = migrateConfig reg doc f t := by
  have hget : ∀ v : Int, registryGet (registerMigration reg f0 t0 fn) (migrationKey v (v + 1)) =
      registryGet reg (migrationKey v (v + 1)) := by
    intro v
    have hkey : (migrationKey f0 t0 == migrationKey v (v + 1)) = false := by
      rw [beq_eq_false_iff_ne]
      intro heq
      obtain ⟨h1, h2⟩ := migrationKey_inj heq
      omega
    unfold registerMigration registryGet
    simp [List.find?, hkey]
  have hloop : ∀ (fuel : Nat) (v : Int) (d : StrategyConfig),
      migrateLoop (registerMigration reg f0 t0 fn) fuel v d = migrateLoop reg fuel v d := by
    intro fuel
    induction fuel with
    | zero => intro v d; rfl
    | succ fuel ih =>
      intro v d
      simp only [migrateLoop]
      rw [hget v]
      cases hg : registryGet reg (migrationKey v (v + 1)) with
      | none => rfl
      | some mfn =>
        dsimp only
        cases hd : mfn d with
        | ok next => exact ih (v + 1) next
        | error msg => rfl
  unfold migrateConfig
  rw [hloop]

/-- Evaluation witness for C10: registering a `1->3` jump changes nothing
about `migrateConfig(doc, 1, 3)` (which still fails for the missing
`1->2` step). -/
theorem claim_C10_nonconsecutive_registration_inert_witness :
    migrateConfig (registerMigration [] 1 3 stepOneToTwo) sampleConfig 1 3 =
      migrateConfig [] sampleConfig 1 3 :=
  claim_C10_nonconsecutive_registration_inert [] 1 3 stepOneToTwo sampleConfig 1 3 (by decide)
